import Mathlib

/-
  Verification of the DLHD stream-scraper pipeline (src/scripts/script.py).

  The Python program drives a browser through match links, records network
  traffic in a HAR via a capture proxy, scans the captured entries for
  manifest URLs ("mono.m3u8" / "playlist.m3u8" substrings), resolves
  Referer/Origin headers through a fallback chain, validates candidates with
  an HTTP HEAD probe, and aggregates the results per match and per run.

  The shallow embedding below models the external collaborators (the network,
  the capture proxy, the browser plumbing, wall-clock durations) as explicit
  oracle parameters, and translates every pure computation of the script
  directly.  Time is discrete: one poll-loop iteration advances the clock by
  the sleep interval; scans are instantaneous, as in the spec's model.
-/

set_option autoImplicit false

namespace DLHD

/-! ## String helpers: Python's `sub in s` substring test -/

/-- `listStartsWith pat l` holds when `pat` is an initial segment of `l`. -/
def listStartsWith : List Char → List Char → Bool
  | [], _ => true
  | _ :: _, [] => false
  | a :: as, b :: bs => a == b && listStartsWith as bs

/-- `hasSubList pat l`: `pat` occurs contiguously somewhere inside `l`. -/
def hasSubList (pat : List Char) : List Char → Bool
  | [] => listStartsWith pat []
  | c :: rest => listStartsWith pat (c :: rest) || hasSubList pat rest

/-- Python's `pat in hay` on strings. -/
def strContains (hay pat : String) : Bool :=
  hasSubList pat.data hay.data

/-! ## Data model: HAR entries as exposed by the capture proxy -/

/-- One HTTP header as it appears in a HAR: `{'name': ..., 'value': ...}`. -/
structure Header where
  name : String
  value : String
  deriving DecidableEq

/-- The request half of a HAR entry (the fields the script reads). -/
structure HarRequest where
  url : String
  headers : List Header
  deriving DecidableEq

/-- The response half of a HAR entry (the fields the script could read). -/
structure HarResponse where
  status : Nat
  headers : List Header
  deriving DecidableEq

/-- One captured request/response pair from `proxy.har['log']['entries']`. -/
structure HarEntry where
  request : HarRequest
  response : HarResponse
  deriving DecidableEq

/-- A Python dict with string keys and values, as an association list in
insertion order.  `stream_data` dicts and header dicts are modelled so. -/
abbrev StreamDict := List (String × String)

/-- Python dict lookup `d[k]` / `k in d`, first binding wins. -/
def lookupKey : List (String × String) → String → Option String
  | [], _ => none
  | (k, v) :: rest, key => if k = key then some v else lookupKey rest key

/-! ## `_get_header_value`: case-insensitive header lookup (script.py:91) -/

/-- Python's `str.lower()` for the ASCII header names the script compares
(character-wise lowercase, structurally recursive so the kernel can run it). -/
def lowerStr (s : String) : String := String.mk (s.data.map Char.toLower)

/-- `StreamScraper._get_header_value`: first header whose name equals the
target case-insensitively. -/
def get_header_value : List Header → String → Option String
  | [], _ => none
  | h :: rest, target =>
    if lowerStr h.name = lowerStr target then some h.value
    else get_header_value rest target

/-! ## `urlparse` scheme/netloc (script.py:150 uses scheme and netloc only) -/

/-- Split a character list at the first occurrence of `pat`, returning the
part before and the part after the occurrence. -/
def splitAtSub (pat : List Char) : List Char → Option (List Char × List Char)
  | [] => if listStartsWith pat [] then some ([], []) else none
  | c :: rest =>
    if listStartsWith pat (c :: rest) then some ([], (c :: rest).drop pat.length)
    else
      match splitAtSub pat rest with
      | some (a, b) => some (c :: a, b)
      | none => none

/-- `urlparse(link).scheme`, modelled for the common `scheme://host/path`
shape the script consumes: the part before the first `://`, `""` if absent. -/
def urlparse_scheme (link : String) : String :=
  match splitAtSub "://".data link.data with
  | some (a, _) => String.mk a
  | none => ""

/-- `urlparse(link).netloc`, modelled for the `scheme://host/path` shape:
the part after the first `://` up to the next `/`, `""` if `://` is absent. -/
def urlparse_netloc (link : String) : String :=
  match splitAtSub "://".data link.data with
  | some (_, b) => String.mk (b.takeWhile (fun c => c ≠ '/'))
  | none => ""

/-- The synthesized fallback origin `f"{urlparse(link).scheme}://{urlparse(link).netloc}"`. -/
def synthOrigin (link : String) : String :=
  urlparse_scheme link ++ "://" ++ urlparse_netloc link

/-! ## The Referer/Origin fallback chains (script.py:141-151) -/

/-- Python's `a or b` where `a` is an optional string: a present, non-empty
string is truthy and wins; `None` and `""` fall through to `b`. -/
def pyOrStr : Option String → String → String
  | some v, d => if v = "" then d else v
  | none, d => d

/-- The `referer = ... or ... or link` chain of script.py:141-145. -/
def resolveReferer (reqHs respHs : List Header) (link : String) : String :=
  pyOrStr (get_header_value reqHs "Referer")
    (pyOrStr (get_header_value respHs "Referer") link)

/-- The `origin = ... or ... or f"{scheme}://{netloc}"` chain of script.py:147-151. -/
def resolveOrigin (reqHs respHs : List Header) (link : String) : String :=
  pyOrStr (get_header_value reqHs "Origin")
    (pyOrStr (get_header_value respHs "Origin") (synthOrigin link))

/-- Spec-side definition, from the spec's words: "Resolution order (first
populated wins)" over an ordered list of candidate sources, terminating at a
guaranteed synthesized default.  Used only to compare with the source chain. -/
def firstPopulated : List (Option String) → String → String
  | [], d => d
  | some v :: rest, d => if v ≠ "" then v else firstPopulated rest d
  | none :: rest, d => firstPopulated rest d

/-! ## `validate_m3u8_url` (script.py:99-105) -/

/-- Outcome of `requests.head(url, headers=headers, timeout=5)`: either an
exception (any protocol/connection failure, carried as a message) or a
response status code.  The network is an oracle parameter. -/
abbrev NetOracle := String → List (String × String) → Except String Nat

/-- `StreamScraper.validate_m3u8_url`: HEAD probe, `status == 200` is valid,
any exception is caught by the bare `except:` and yields `False`. -/
def validate_m3u8_url (net : NetOracle) (url : String)
    (headers : List (String × String)) : Bool :=
  match net url headers with
  | Except.ok code => code == 200
  | Except.error _ => false

/-! ## The detector scan (body of the `for entry in ...` loop, script.py:132-167) -/

/-- The hard-coded manifest patterns of script.py:135:
`"mono.m3u8" in request_url or "playlist.m3u8" in request_url`. -/
def matchesPattern (url : String) : Bool :=
  strContains url "mono.m3u8" || strContains url "playlist.m3u8"

/-- The `stream_headers` dict built for validation (script.py:154-157). -/
def stream_headers (e : HarEntry) (link : String) : List (String × String) :=
  [("Referer", resolveReferer e.request.headers e.response.headers link),
   ("Origin", resolveOrigin e.request.headers e.response.headers link)]

/-- The `stream_data` dict appended for a validated candidate (script.py:160-165). -/
def mkStreamData (e : HarEntry) (link : String) : StreamDict :=
  [("url", e.request.url),
   ("referrer", resolveReferer e.request.headers e.response.headers link),
   ("origin", resolveOrigin e.request.headers e.response.headers link),
   ("source_link", link)]

/-- A captured entry qualifies when its URL matches a manifest pattern and
the HEAD probe with its resolved headers succeeds. -/
def qualifies (net : NetOracle) (link : String) (e : HarEntry) : Bool :=
  matchesPattern e.request.url &&
    validate_m3u8_url net e.request.url (stream_headers e link)

/-- One iteration of the `for entry in self.proxy.har['log']['entries']`
loop: pattern test, header resolution, validation, conditional append. -/
def scan_step (net : NetOracle) (link : String) (acc : List StreamDict)
    (e : HarEntry) : List StreamDict :=
  if matchesPattern e.request.url then
    if validate_m3u8_url net e.request.url (stream_headers e link) then
      acc ++ [mkStreamData e link]
    else acc
  else acc

/-- The whole `for` loop over the current HAR entries, threading the
`streams` accumulator. -/
def scanEntries (net : NetOracle) (link : String) (entries : List HarEntry)
    (acc : List StreamDict) : List StreamDict :=
  entries.foldl (scan_step net link) acc

/-! ## The poll loop (script.py:127-171)

`while time.time() - start_time < timeout: scan; if streams: break; sleep(1)`.
`entriesAt t` is the HAR entry list visible at elapsed time `t` (the capture
grows over time).  The recursion is fuelled; any fuel with
`timeout ≤ fuel * interval` is enough (proved below), and the script's
parameters are `timeout = 30`, `interval = 1`. -/

/-- The poll loop: returns the final `streams` list and the elapsed time at
which the loop exited. -/
def pollAux (net : NetOracle) (link : String) (entriesAt : Nat → List HarEntry)
    (timeout interval : Nat) : Nat → List StreamDict → Nat → List StreamDict × Nat
  | 0, acc, t =>
    if t < timeout then
      (scanEntries net link (entriesAt t) acc, t)
    else (acc, t)
  | fuel + 1, acc, t =>
    if t < timeout then
      if (scanEntries net link (entriesAt t) acc).isEmpty then
        pollAux net link entriesAt timeout interval fuel
          (scanEntries net link (entriesAt t) acc) (t + interval)
      else (scanEntries net link (entriesAt t) acc, t)
    else (acc, t)

/-- `StreamScraper.extract_stream_data` (the undecorated body): poll the
capture for up to 30 seconds, sleeping 1 second between scans, and return the
accumulated `streams`.  Proxy/browser plumbing before the loop is effectful
and is modelled at the retry layer. -/
def extract_stream_data (net : NetOracle) (entriesAt : Nat → List HarEntry)
    (link : String) : List StreamDict :=
  (pollAux net link entriesAt 30 1 30 [] 0).1

/-! ## The retry decorator: `@backoff.on_exception(backoff.expo, Exception, max_tries=3, max_time=30)`

Modelled from the backoff library's documented semantics: call the target; on
success return immediately; on an exception, give up (re-raise) if the number
of tries has reached `max_tries` or the elapsed time has reached `max_time`,
otherwise sleep the next exponential wait — clipped so as not to overrun
`max_time` — and try again.  Nominal delays (`expo`: 2^n), jitter omitted.
`f n = (outcome, duration)` of attempt number `n` (an oracle covering the
navigation/capture plumbing).  Returns the result and the list of elapsed
times at which each attempt started. -/

/-- `backoff.expo` nominal wait sequence: 2^n. -/
def backoff_expo (n : Nat) : Nat := 2 ^ n

/-- The retry driver of `backoff.on_exception`. -/
def on_exception_run {α : Type} (f : Nat → Except String α × Nat)
    (maxTries maxTime : Nat) : Nat → Nat → Nat → Except String α × List Nat
  | fuel, n, now =>
    match f n with
    | (Except.ok v, _) => (Except.ok v, [now])
    | (Except.error e, dur) =>
      match fuel with
      | 0 => (Except.error e, [now])
      | fuel + 1 =>
        if maxTries ≤ n + 1 ∨ maxTime ≤ now + dur then (Except.error e, [now])
        else
          let wait := min (backoff_expo n) (maxTime - (now + dur))
          let rest := on_exception_run f maxTries maxTime fuel (n + 1) (now + dur + wait)
          (rest.1, now :: rest.2)

/-- The decorated `extract_stream_data`: `max_tries=3, max_time=30`
(script.py:107). -/
def retry_extract {α : Type} (f : Nat → Except String α × Nat) :
    Except String α × List Nat :=
  on_exception_run f 3 30 3 0 0

/-! ## `process_match` (script.py:178-195) and `main` (script.py:205-250) -/

/-- One input match object from `soccer_data.json`. -/
structure MatchInput where
  competition : String
  matchName : String
  links : List String
  deriving DecidableEq

/-- The `StreamData` dataclass of script.py:32-38 (`match` is a Lean keyword,
kept as `matchName`). -/
structure StreamData where
  competition : String
  matchName : String
  links : List String
  streams : List StreamDict
  last_updated : String
  deriving DecidableEq

/-- An attempt at one link, as fed to the retry decorator: either the
plumbing (new_har / execute_script / driver.get) raises, or the poll loop
runs and returns its streams.  `plumb link n` is `some msg` when attempt `n`
on `link` raises, `dur link n` its duration. -/
def link_attempt (plumb : String → Nat → Option String) (dur : String → Nat → Nat)
    (har : String → Nat → List HarEntry) (net : NetOracle)
    (link : String) (n : Nat) : Except String (List StreamDict) × Nat :=
  match plumb link n with
  | some e => (Except.error e, dur link n)
  | none => (Except.ok (extract_stream_data net (har link) link), dur link n)

/-- `StreamScraper.process_match`, generic in the per-link attempt oracle:
for each link, run the retry-wrapped extraction; on success extend
`all_streams`, on an exception log and continue with the next link. -/
def process_match (attemptOf : String → Nat → Except String (List StreamDict) × Nat)
    (m : MatchInput) (now : String) : StreamData :=
  let all_streams := m.links.foldl (fun acc link =>
    match (retry_extract (attemptOf link)).1 with
    | Except.ok streams => acc ++ streams
    | Except.error _ => acc) []
  { competition := m.competition, matchName := m.matchName, links := m.links,
    streams := all_streams, last_updated := now }

/-- `process_match` instantiated with the actual extraction pipeline. -/
def process_match_full (plumb : String → Nat → Option String)
    (dur : String → Nat → Nat) (har : String → Nat → List HarEntry)
    (net : NetOracle) (m : MatchInput) (now : String) : StreamData :=
  process_match (link_attempt plumb dur har net) m now

/-- The per-match loop of `main` (script.py:220-225): each match is processed
inside its own `try`; an exception drops that match's record and processing
continues with the next match. -/
def mainLoop (proc : MatchInput → Except String StreamData)
    (ms : List MatchInput) : List StreamData :=
  ms.foldl (fun acc m =>
    match proc m with
    | Except.ok r => acc ++ [r]
    | Except.error _ => acc) []

/-- `matches_with_streams` (script.py:228): count of records whose `streams`
list is truthy, i.e. non-empty. -/
def matches_with_streams (ms : List StreamData) : Nat :=
  (ms.filter (fun m => !m.streams.isEmpty)).length

/-- `success_rate` (script.py:230):
`matches_with_streams / total_matches if total_matches > 0 else 0`. -/
def success_rate (ms : List StreamData) : ℚ :=
  if 0 < ms.length then (matches_with_streams ms : ℚ) / (ms.length : ℚ) else 0

/-! ## Setup, teardown and the `with` statement (script.py:48-54, 197-203, 213-250) -/

/-- Which external binaries exist; determines whether each setup step raises. -/
structure World where
  proxyPathExists : Bool
  driverPathExists : Bool
  deriving DecidableEq

/-- The scraper's acquired resources: the proxy server process and the
browser driver. -/
structure ScraperState where
  server : Bool
  driver : Bool
  deriving DecidableEq

/-- `setup_proxy` (script.py:57-65): raises `FileNotFoundError` if the proxy
binary is missing, otherwise starts the server.  (The backoff decorator on it
retries, but path existence is stable, so the retried outcome is the same.) -/
def setup_proxy (w : World) (st : ScraperState) : ScraperState × Option String :=
  if w.proxyPathExists then ({ st with server := true }, none)
  else (st, some "BrowserMob Proxy not found")

/-- `setup_driver` (script.py:67-89): raises `FileNotFoundError` if the
chromedriver binary is missing, otherwise starts the browser. -/
def setup_driver (w : World) (st : ScraperState) : ScraperState × Option String :=
  if w.driverPathExists then ({ st with driver := true }, none)
  else (st, some "ChromeDriver not found")

/-- `__enter__` (script.py:48-51): `setup_proxy` then `setup_driver`; an
exception propagates, carrying whatever state was acquired so far. -/
def enterScraper (w : World) : ScraperState × Option String :=
  let st0 : ScraperState := { server := false, driver := false }
  match setup_proxy w st0 with
  | (st1, some e) => (st1, some e)
  | (st1, none) => setup_driver w st1

/-- `cleanup` (script.py:197-203): quit the driver if present, stop the
server if present. -/
def cleanup (st : ScraperState) : ScraperState :=
  let st1 := if st.driver then { st with driver := false } else st
  if st1.server then { st1 with server := false } else st1

/-- The run metadata dict (script.py:234-239). -/
structure Metadata where
  total_matches : Nat
  matchCount_with_streams : Nat
  rate : ℚ
  timestamp : String
  deriving DecidableEq

/-- The output document (script.py:232-240). -/
structure OutputData where
  matchRecords : List StreamData
  metadata : Metadata
  deriving DecidableEq

/-- Observable outcome of one `main` run: the resources' final state, the
output document (if written), and the fatal error (if raised). -/
structure RunResult where
  finalState : ScraperState
  output : Option OutputData
  fatalError : Option String
  deriving DecidableEq

/-- `main` (script.py:205-250), after the input file is read: enter the
`with StreamScraper(...)` block.  Python's context-manager protocol calls
`__exit__` only when `__enter__` has returned successfully: when `__enter__`
raises, no cleanup runs and the exception propagates — the error branch below
returns the state exactly as `__enter__` left it.  On the success path the
matches are processed, the block exits through `cleanup`, the metrics are
computed and the output document is written. -/
def main_run (w : World) (proc : MatchInput → Except String StreamData)
    (ms : List MatchInput) (now : String) : RunResult :=
  match enterScraper w with
  | (st, some e) => { finalState := st, output := none, fatalError := some e }
  | (st, none) =>
    let updated := mainLoop proc ms
    let st2 := cleanup st
    let out : OutputData :=
      { matchRecords := updated,
        metadata :=
          { total_matches := updated.length,
            matchCount_with_streams := matches_with_streams updated,
            rate := success_rate updated,
            timestamp := now } }
    { finalState := st2, output := some out, fatalError := none }

/-! ## Concrete fixtures used by witnesses and counterexamples -/

/-- A network on which every probe answers 200. -/
def netAll : NetOracle := fun _ _ => Except.ok 200

/-- A network on which every probe raises. -/
def netDown : NetOracle := fun _ _ => Except.error "ConnectionError"

/-- A captured manifest request. -/
def entryX : HarEntry :=
  { request := { url := "https://cdn.example/playlist.m3u8", headers := [] },
    response := { status := 200, headers := [] } }

/-- A second captured manifest request with a different URL. -/
def entryY : HarEntry :=
  { request := { url := "https://cdn2.example/mono.m3u8", headers := [] },
    response := { status := 200, headers := [] } }

/-- A capture in which the same manifest URL is recorded twice at once, and a
second, distinct manifest URL arrives one second later (still far inside the
30-second window). -/
def entriesC1 : Nat → List HarEntry :=
  fun t => if t = 0 then [entryX, entryX] else [entryX, entryX, entryY]

/-- The page link navigated to in the duplicate-URL scenario. -/
def linkC1 : String := "https://page.example/watch"

/-- A capture holding the single entry `entryY` from the start. -/
def entriesY : Nat → List HarEntry := fun _ => [entryY]

/-- The page link navigated to in the single-entry scenario. -/
def linkY : String := "https://pg.example/"

/-- The `stream_data` dict the script builds for `entryY` under `linkY`. -/
def sY : StreamDict :=
  [("url", "https://cdn2.example/mono.m3u8"), ("referrer", "https://pg.example/"),
   ("origin", "https://pg.example"), ("source_link", "https://pg.example/")]

/-- An empty capture: no request ever qualifies. -/
def entriesNone : Nat → List HarEntry := fun _ => []

/-- One input match pointing at `linkY`. -/
def m0 : MatchInput := { competition := "comp", matchName := "mt", links := ["https://pg.example/"] }

/-- Plumbing that never raises. -/
def plumb0 : String → Nat → Option String := fun _ _ => none

/-- Attempt durations of zero. -/
def dur0 : String → Nat → Nat := fun _ _ => 0

/-- Per-link capture: every link sees `entriesY`. -/
def har0 : String → Nat → List HarEntry := fun _ _ => [entryY]

/-- A per-match processor that always raises (never reached on the abort path). -/
def proc0 : MatchInput → Except String StreamData := fun _ => Except.error "unused"

/-- An attempt oracle that immediately succeeds with an empty stream list. -/
def fOk : Nat → Except String (List StreamDict) × Nat := fun _ => (Except.ok [], 5)

/-- A record with one stream. -/
def sd1 : StreamData :=
  { competition := "c", matchName := "m", links := ["l"],
    streams := [[("url", "u")]], last_updated := "t" }

/-- A record with no streams. -/
def sd0 : StreamData :=
  { competition := "c", matchName := "m2", links := ["l"],
    streams := [], last_updated := "t" }

/-- A request-header list whose Referer header is stored in upper case. -/
def hsU : List Header := [{ name := "REFERER", value := "https://r.example/" }]


/-! ## Helper lemmas -/

theorem scan_step_eq (net : NetOracle) (link : String) (a : List StreamDict) (e : HarEntry) :
    scan_step net link a e =
      if qualifies net link e then a ++ [mkStreamData e link] else a := by
  unfold scan_step qualifies
  cases h1 : matchesPattern e.request.url <;>
    cases h2 : validate_m3u8_url net e.request.url (stream_headers e link) <;> simp

theorem scanEntries_eq (net : NetOracle) (link : String) (es : List HarEntry)
    (acc : List StreamDict) :
    scanEntries net link es acc =
      acc ++ (es.filter (qualifies net link)).map (fun e => mkStreamData e link) := by
  induction es generalizing acc with
  | nil => simp [scanEntries]
  | cons e rest ih =>
    have h : scanEntries net link (e :: rest) acc
        = scanEntries net link rest (scan_step net link acc e) := rfl
    rw [h, ih, scan_step_eq]
    cases hq : qualifies net link e <;> simp [hq]

theorem mem_scanEntries {net : NetOracle} {link : String} {es : List HarEntry}
    {acc : List StreamDict} {s : StreamDict}
    (h : s ∈ scanEntries net link es acc) :
    s ∈ acc ∨ ∃ e, e ∈ es ∧ qualifies net link e = true ∧ s = mkStreamData e link := by
  rw [scanEntries_eq] at h
  rcases List.mem_append.1 h with h | h
  · exact Or.inl h
  · right
    rcases List.mem_map.1 h with ⟨e, he, rfl⟩
    rcases List.mem_filter.1 he with ⟨he1, he2⟩
    exact ⟨e, he1, he2, rfl⟩

theorem mem_pollAux {net : NetOracle} {link : String} {entriesAt : Nat → List HarEntry}
    {timeout interval : Nat} {s : StreamDict} :
    ∀ {fuel : Nat} {acc : List StreamDict} {t : Nat},
    s ∈ (pollAux net link entriesAt timeout interval fuel acc t).1 →
    s ∈ acc ∨ ∃ t2 e, e ∈ entriesAt t2 ∧ qualifies net link e = true ∧ s = mkStreamData e link := by
  intro fuel
  induction fuel with
  | zero =>
    intro acc t h
    unfold pollAux at h
    split at h
    · rcases mem_scanEntries h with h | ⟨e, he, hq, rfl⟩
      · exact Or.inl h
      · exact Or.inr ⟨t, e, he, hq, rfl⟩
    · exact Or.inl h
  | succ fuel ih =>
    intro acc t h
    unfold pollAux at h
    split at h
    · split at h
      · rcases ih h with h2 | h2
        · rcases mem_scanEntries h2 with h3 | ⟨e, he, hq, rfl⟩
          · exact Or.inl h3
          · exact Or.inr ⟨t, e, he, hq, rfl⟩
        · exact Or.inr h2
      · rcases mem_scanEntries h with h | ⟨e, he, hq, rfl⟩
        · exact Or.inl h
        · exact Or.inr ⟨t, e, he, hq, rfl⟩
    · exact Or.inl h

theorem pollAux_time_lt {net : NetOracle} {link : String} {entriesAt : Nat → List HarEntry}
    {timeout interval : Nat} :
    ∀ {fuel : Nat} {acc : List StreamDict} {t : Nat},
    t < timeout + interval →
    (pollAux net link entriesAt timeout interval fuel acc t).2 < timeout + interval := by
  intro fuel
  induction fuel with
  | zero =>
    intro acc t ht
    unfold pollAux
    split <;> exact ht
  | succ fuel ih =>
    intro acc t ht
    unfold pollAux
    split
    · split
      · rename_i hlt _
        exact ih (by omega)
      · exact ht
    · exact ht

theorem pollAux_fuel_stable {net : NetOracle} {link : String} {entriesAt : Nat → List HarEntry}
    {timeout interval : Nat} :
    ∀ {fuel : Nat} {acc : List StreamDict} {t : Nat},
    timeout ≤ t + fuel * interval →
    pollAux net link entriesAt timeout interval fuel acc t
      = pollAux net link entriesAt timeout interval (fuel + 1) acc t := by
  intro fuel
  induction fuel with
  | zero =>
    intro acc t hf
    rw [Nat.zero_mul] at hf
    conv_lhs => unfold pollAux
    conv_rhs => unfold pollAux
    split
    · omega
    · rfl
  | succ fuel ih =>
    intro acc t hf
    rw [Nat.succ_mul] at hf
    conv_lhs => unfold pollAux
    conv_rhs => unfold pollAux
    split
    · split
      · exact ih (by omega)
      · rfl
    · rfl

theorem pollAux_skip {net : NetOracle} {link : String} {entriesAt : Nat → List HarEntry}
    {timeout interval fuel t : Nat}
    (ht : t < timeout)
    (hscan : scanEntries net link (entriesAt t) [] = []) :
    pollAux net link entriesAt timeout interval (fuel + 1) [] t
      = pollAux net link entriesAt timeout interval fuel [] (t + interval) := by
  conv_lhs => unfold pollAux
  rw [if_pos ht, hscan]
  simp

theorem pollAux_hit {net : NetOracle} {link : String} {entriesAt : Nat → List HarEntry}
    {timeout interval fuel t : Nat}
    (ht : t < timeout)
    (hscan : scanEntries net link (entriesAt t) [] ≠ []) :
    pollAux net link entriesAt timeout interval fuel [] t
      = (scanEntries net link (entriesAt t) [], t) := by
  cases fuel with
  | zero =>
    unfold pollAux
    rw [if_pos ht]
  | succ fuel =>
    unfold pollAux
    rw [if_pos ht]
    simp [List.isEmpty_iff, hscan]

theorem pollAux_reach {net : NetOracle} {link : String} {entriesAt : Nat → List HarEntry}
    {timeout : Nat} :
    ∀ (d : Nat) {fuel t : Nat},
    (∀ u, t ≤ u → u < t + d → scanEntries net link (entriesAt u) [] = []) →
    t + d < timeout →
    d ≤ fuel →
    pollAux net link entriesAt timeout 1 fuel [] t
      = pollAux net link entriesAt timeout 1 (fuel - d) [] (t + d) := by
  intro d
  induction d with
  | zero => intro fuel t _ _ _; simp
  | succ d ih =>
    intro fuel t hempty hlt hd
    cases fuel with
    | zero => omega
    | succ fuel =>
      rw [pollAux_skip (by omega) (hempty t (le_refl t) (by omega))]
      rw [ih (fun u hu1 hu2 => hempty u (by omega) (by omega)) (by omega) (by omega)]
      congr 1 <;> omega

theorem lookup_mk_url (e : HarEntry) (link : String) :
    lookupKey (mkStreamData e link) "url" = some e.request.url := rfl

theorem lookup_mk_referrer (e : HarEntry) (link : String) :
    lookupKey (mkStreamData e link) "referrer"
      = some (resolveReferer e.request.headers e.response.headers link) := rfl

theorem lookup_mk_origin (e : HarEntry) (link : String) :
    lookupKey (mkStreamData e link) "origin"
      = some (resolveOrigin e.request.headers e.response.headers link) := rfl

theorem lookup_mk_source (e : HarEntry) (link : String) :
    lookupKey (mkStreamData e link) "source_link" = some link := rfl

theorem lookup_mk_status (e : HarEntry) (link : String) :
    lookupKey (mkStreamData e link) "response_status" = none := rfl

theorem on_exception_attempts_le {α : Type} (f : Nat → Except String α × Nat)
    (maxTries maxTime : Nat) :
    ∀ (fuel n now : Nat), n < maxTries →
    (on_exception_run f maxTries maxTime fuel n now).2.length ≤ maxTries - n := by
  intro fuel
  induction fuel with
  | zero =>
    intro n now hn
    unfold on_exception_run
    cases hf : f n with
    | mk r dur =>
      cases r <;> simp <;> omega
  | succ fuel ih =>
    intro n now hn
    unfold on_exception_run
    cases hf : f n with
    | mk r dur =>
      cases r with
      | ok v => simp; omega
      | error e =>
        dsimp only
        split
        · simp; omega
        · rename_i hcond
          have hn2 : n + 1 < maxTries := by
            rw [not_or] at hcond
            omega
          have := ih (n + 1) (now + dur + min (backoff_expo n) (maxTime - (now + dur))) hn2
          simp only [List.length_cons]
          omega

theorem on_exception_starts_le {α : Type} (f : Nat → Except String α × Nat)
    (maxTries maxTime : Nat) :
    ∀ (fuel n now : Nat), now ≤ maxTime →
    ∀ t ∈ (on_exception_run f maxTries maxTime fuel n now).2, t ≤ maxTime := by
  intro fuel
  induction fuel with
  | zero =>
    intro n now hnow t ht
    unfold on_exception_run at ht
    cases hf : f n with
    | mk r dur =>
      rw [hf] at ht
      cases r <;> simp at ht <;> omega
  | succ fuel ih =>
    intro n now hnow t ht
    unfold on_exception_run at ht
    cases hf : f n with
    | mk r dur =>
      rw [hf] at ht
      cases r with
      | ok v => simp at ht; omega
      | error e =>
        dsimp only at ht
        split at ht
        · simp at ht; omega
        · rename_i hcond
          rw [not_or] at hcond
          obtain ⟨-, h2⟩ := hcond
          simp only [List.mem_cons] at ht
          rcases ht with rfl | ht
          · exact hnow
          · exact ih (n + 1) _ (by omega) t ht

theorem on_exception_ok_origin {α : Type} (f : Nat → Except String α × Nat)
    (maxTries maxTime : Nat) :
    ∀ (fuel n now : Nat) (v : α),
    (on_exception_run f maxTries maxTime fuel n now).1 = Except.ok v →
    ∃ k, (f k).1 = Except.ok v := by
  intro fuel
  induction fuel with
  | zero =>
    intro n now v h
    unfold on_exception_run at h
    cases hf : f n with
    | mk r dur =>
      rw [hf] at h
      cases r with
      | ok w => simp at h; exact ⟨n, by rw [hf, h]⟩
      | error e => simp at h
  | succ fuel ih =>
    intro n now v h
    unfold on_exception_run at h
    cases hf : f n with
    | mk r dur =>
      rw [hf] at h
      cases r with
      | ok w => simp at h; exact ⟨n, by rw [hf, h]⟩
      | error e =>
        dsimp only at h
        split at h
        · simp at h
        · exact ih (n + 1) _ v h

theorem retry_extract_ok_first {α : Type} (f : Nat → Except String α × Nat)
    (v : α) (d : Nat) (h : f 0 = (Except.ok v, d)) :
    retry_extract f = (Except.ok v, [0]) := by
  unfold retry_extract on_exception_run
  rw [h]

theorem process_match_streams_eq
    (attemptOf : String → Nat → Except String (List StreamDict) × Nat)
    (m : MatchInput) (now : String) :
    (process_match attemptOf m now).streams
      = (m.links.map (fun link =>
          match (retry_extract (attemptOf link)).1 with
          | Except.ok streams => streams
          | Except.error _ => [])).flatten := by
  show m.links.foldl _ [] = _
  have key : ∀ (ls : List String) (acc : List StreamDict),
      ls.foldl (fun acc link =>
        match (retry_extract (attemptOf link)).1 with
        | Except.ok streams => acc ++ streams
        | Except.error _ => acc) acc
      = acc ++ (ls.map (fun link =>
          match (retry_extract (attemptOf link)).1 with
          | Except.ok streams => streams
          | Except.error _ => [])).flatten := by
    intro ls
    induction ls with
    | nil => intro acc; simp
    | cons l rest ih =>
      intro acc
      simp only [List.foldl_cons, List.map_cons, List.flatten_cons]
      cases h : (retry_extract (attemptOf l)).1 with
      | ok streams =>
        dsimp only
        rw [ih, List.append_assoc]
      | error e =>
        dsimp only
        rw [ih, List.nil_append]
  simpa using key m.links []

theorem mainLoop_eq (proc : MatchInput → Except String StreamData)
    (ms : List MatchInput) :
    mainLoop proc ms = ms.filterMap (fun m =>
      match proc m with
      | Except.ok r => some r
      | Except.error _ => none) := by
  unfold mainLoop
  have key : ∀ (l : List MatchInput) (acc : List StreamData),
      l.foldl (fun acc m =>
        match proc m with
        | Except.ok r => acc ++ [r]
        | Except.error _ => acc) acc
      = acc ++ l.filterMap (fun m =>
          match proc m with
          | Except.ok r => some r
          | Except.error _ => none) := by
    intro l
    induction l with
    | nil => intro acc; simp
    | cons m rest ih =>
      intro acc
      simp only [List.foldl_cons, List.filterMap_cons]
      cases h : proc m with
      | ok r =>
        dsimp only
        rw [ih, List.append_assoc, List.singleton_append]
      | error e =>
        dsimp only
        rw [ih]
  simpa using key ms []

theorem get_header_value_some {hs : List Header} {t v : String}
    (h : get_header_value hs t = some v) :
    ∃ hd, hd ∈ hs ∧ lowerStr hd.name = lowerStr t ∧ hd.value = v := by
  induction hs with
  | nil => simp [get_header_value] at h
  | cons hd rest ih =>
    unfold get_header_value at h
    split at h
    · rename_i heq
      exact ⟨hd, List.mem_cons_self hd rest, heq, by injection h⟩
    · rcases ih h with ⟨hd2, h1, h2, h3⟩
      exact ⟨hd2, List.mem_cons_of_mem hd h1, h2, h3⟩

theorem get_header_value_none {hs : List Header} {t : String}
    (h : get_header_value hs t = none) :
    ∀ hd ∈ hs, lowerStr hd.name ≠ lowerStr t := by
  induction hs with
  | nil => simp
  | cons hd rest ih =>
    unfold get_header_value at h
    split at h
    · simp at h
    · rename_i hne
      intro hd2 hmem
      rcases List.mem_cons.1 hmem with rfl | hmem
      · exact hne
      · exact ih h hd2 hmem

theorem resolveReferer_eq_chain (reqHs respHs : List Header) (link : String) :
    resolveReferer reqHs respHs link
      = firstPopulated [get_header_value reqHs "Referer",
          get_header_value respHs "Referer"] link := by
  unfold resolveReferer
  cases h1 : get_header_value reqHs "Referer" with
  | none =>
    cases h2 : get_header_value respHs "Referer" with
    | none => simp [pyOrStr, firstPopulated]
    | some v => by_cases hv : v = "" <;> simp [pyOrStr, firstPopulated, hv]
  | some v =>
    by_cases hv : v = ""
    · cases h2 : get_header_value respHs "Referer" with
      | none => simp [pyOrStr, firstPopulated, hv]
      | some w => by_cases hw : w = "" <;> simp [pyOrStr, firstPopulated, hv, hw]
    · simp [pyOrStr, firstPopulated, hv]

theorem resolveOrigin_eq_chain (reqHs respHs : List Header) (link : String) :
    resolveOrigin reqHs respHs link
      = firstPopulated [get_header_value reqHs "Origin",
          get_header_value respHs "Origin"] (synthOrigin link) := by
  unfold resolveOrigin
  cases h1 : get_header_value reqHs "Origin" with
  | none =>
    cases h2 : get_header_value respHs "Origin" with
    | none => simp [pyOrStr, firstPopulated]
    | some v => by_cases hv : v = "" <;> simp [pyOrStr, firstPopulated, hv]
  | some v =>
    by_cases hv : v = ""
    · cases h2 : get_header_value respHs "Origin" with
      | none => simp [pyOrStr, firstPopulated, hv]
      | some w => by_cases hw : w = "" <;> simp [pyOrStr, firstPopulated, hv, hw]
    · simp [pyOrStr, firstPopulated, hv]

/-! ## Claim theorems -/

/-- Claim C1, counterexample.  On a capture whose snapshot at time 0 holds
the same qualifying manifest URL twice, and where a second distinct
qualifying URL arrives at time 1 (well inside the 30-second window), the
collect loop returns the duplicate URL twice (no deduplication by URL) and
never returns the later URL (no accumulation across the whole timeout
window) — refuting "exactly that subset, deduplicated by URL, accumulated
across the whole timeout window". -/
theorem C1_counterexample :
    ((extract_stream_data netAll entriesC1 linkC1).map (fun s => lookupKey s "url")
      = [some "https://cdn.example/playlist.m3u8", some "https://cdn.example/playlist.m3u8"]) ∧
    ¬ ((extract_stream_data netAll entriesC1 linkC1).map (fun s => lookupKey s "url")).Nodup ∧
    (entryY ∈ entriesC1 1 ∧ qualifies netAll linkC1 entryY = true) ∧
    some "https://cdn2.example/mono.m3u8"
      ∉ (extract_stream_data netAll entriesC1 linkC1).map (fun s => lookupKey s "url") :=
  ⟨by decide, by decide, ⟨by decide, by decide⟩, by decide⟩

/-- Claim C1 (amended): in collect mode the detector returns exactly the
qualifying requests (URL matches a configured pattern and passes validation)
of the first poll snapshot on which any request qualifies, in arrival order,
keeping duplicate URLs; polling stops at that snapshot instead of
accumulating across the whole timeout window. -/
theorem C1_first_snapshot {net : NetOracle} {entriesAt : Nat → List HarEntry}
    {link : String} {tstar : Nat}
    (htlt : tstar < 30)
    (hempty : ∀ u, u < tstar → scanEntries net link (entriesAt u) [] = [])
    (hhit : scanEntries net link (entriesAt tstar) [] ≠ []) :
    extract_stream_data net entriesAt link
      = ((entriesAt tstar).filter (qualifies net link)).map (fun e => mkStreamData e link) := by
  unfold extract_stream_data
  rw [pollAux_reach tstar (fun u hu1 hu2 => hempty u (by omega)) (by omega) (by omega)]
  simp only [Nat.zero_add]
  rw [pollAux_hit htlt hhit]
  rw [scanEntries_eq]
  simp

/-- Witness for C1_first_snapshot at a concrete capture whose first snapshot
already qualifies. -/
theorem C1_first_snapshot_witness :
    ((0 : Nat) < 30 ∧ scanEntries netAll linkY (entriesY 0) [] ≠ []) ∧
    extract_stream_data netAll entriesY linkY
      = ((entriesY 0).filter (qualifies netAll linkY)).map (fun e => mkStreamData e linkY) :=
  ⟨⟨by decide, by decide⟩,
    C1_first_snapshot (by decide) (fun u hu => absurd hu (Nat.not_lt_zero u)) (by decide)⟩

/-- Claim C2: referrer and origin are each resolved by the deterministic
fallback chain — case-insensitive lookup in the request headers, then in the
response headers (a present but empty value is "not populated" and falls
through), then the synthesized default (referrer = the originating link,
origin = scheme://host of the originating link).  Both results are total
strings, hence never null.  The last two conjuncts show the lookup matches
header names case-insensitively. -/
theorem C2_header_resolution :
    ∀ (reqHs respHs : List Header) (link : String),
    resolveReferer reqHs respHs link
      = firstPopulated [get_header_value reqHs "Referer",
          get_header_value respHs "Referer"] link
    ∧ resolveOrigin reqHs respHs link
      = firstPopulated [get_header_value reqHs "Origin",
          get_header_value respHs "Origin"] (synthOrigin link)
    ∧ (∀ t v, get_header_value reqHs t = some v →
        ∃ hd, hd ∈ reqHs ∧ lowerStr hd.name = lowerStr t ∧ hd.value = v)
    ∧ (∀ t, get_header_value reqHs t = none →
        ∀ hd ∈ reqHs, lowerStr hd.name ≠ lowerStr t) := by
  intro reqHs respHs link
  exact ⟨resolveReferer_eq_chain reqHs respHs link,
    resolveOrigin_eq_chain reqHs respHs link,
    fun t v h => get_header_value_some h,
    fun t h => get_header_value_none h⟩

/-- Witness for C2_header_resolution: an upper-cased stored header name is
found by the case-insensitive lookup. -/
theorem C2_header_resolution_witness :
    get_header_value hsU "Referer" = some "https://r.example/" ∧
    ∃ hd, hd ∈ hsU ∧ lowerStr hd.name = lowerStr "Referer"
      ∧ hd.value = "https://r.example/" :=
  ⟨by decide,
    (C2_header_resolution hsU [] "x").2.2.1 "Referer" "https://r.example/" (by decide)⟩

/-- Claim C3: every stream dict in a finished match record carries a URL and
resolved Referer/Origin with which the reachability probe succeeded; a
candidate whose probe fails is never appended, over any plumbing, capture and
network oracles. -/
theorem C3_streams_validated :
    ∀ (plumb : String → Nat → Option String) (dur : String → Nat → Nat)
      (har : String → Nat → List HarEntry) (net : NetOracle)
      (m : MatchInput) (now : String) (s : StreamDict),
    s ∈ (process_match_full plumb dur har net m now).streams →
    ∃ u r o, lookupKey s "url" = some u ∧ lookupKey s "referrer" = some r ∧
      lookupKey s "origin" = some o ∧
      validate_m3u8_url net u [("Referer", r), ("Origin", o)] = true := by
  intro plumb dur har net m now s hs
  rw [process_match_full, process_match_streams_eq] at hs
  rcases List.mem_flatten.1 hs with ⟨v, hv, hsv⟩
  rcases List.mem_map.1 hv with ⟨link, hlink, rfl⟩
  revert hsv
  cases hretry : (retry_extract (link_attempt plumb dur har net link)).1 with
  | error e => intro hsv; simp at hsv
  | ok v =>
    intro hsv
    rcases on_exception_ok_origin (link_attempt plumb dur har net link) 3 30 3 0 0 v hretry
      with ⟨k, hk⟩
    unfold link_attempt at hk
    revert hk
    cases hp : plumb link k with
    | some e => intro hk; simp at hk
    | none =>
      intro hk
      simp only at hk
      injection hk with hk2
      subst hk2
      unfold extract_stream_data at hsv
      rcases mem_pollAux hsv with h | ⟨t2, e, he, hq, rfl⟩
      · simp at h
      · rw [qualifies, Bool.and_eq_true] at hq
        exact ⟨e.request.url,
          resolveReferer e.request.headers e.response.headers link,
          resolveOrigin e.request.headers e.response.headers link,
          lookup_mk_url e link, lookup_mk_referrer e link, lookup_mk_origin e link, hq.2⟩

/-- Witness for C3_streams_validated on a concrete one-link match. -/
theorem C3_streams_validated_witness :
    sY ∈ (process_match_full plumb0 dur0 har0 netAll m0 "t").streams ∧
    ∃ u r o, lookupKey sY "url" = some u ∧ lookupKey sY "referrer" = some r ∧
      lookupKey sY "origin" = some o ∧
      validate_m3u8_url netAll u [("Referer", r), ("Origin", o)] = true :=
  ⟨by decide, C3_streams_validated plumb0 dur0 har0 netAll m0 "t" sY (by decide)⟩

/-- Claim C4: over every network oracle — including ones that raise on every
probe — the validator returns a boolean: an exception yields invalid, and a
status code yields valid exactly when it is the explicit success code 200. -/
theorem C4_validator_never_raises :
    ∀ (net : NetOracle) (url : String) (hs : List (String × String)),
    (∀ e, net url hs = Except.error e → validate_m3u8_url net url hs = false)
    ∧ (∀ c, net url hs = Except.ok c →
        (validate_m3u8_url net url hs = true ↔ c = 200)) := by
  intro net url hs
  constructor
  · intro e he
    unfold validate_m3u8_url
    rw [he]
  · intro c hc
    unfold validate_m3u8_url
    rw [hc]
    simp

/-- Witness for C4_validator_never_raises on a network that always raises. -/
theorem C4_validator_never_raises_witness :
    netDown "https://cdn.example/playlist.m3u8" [] = Except.error "ConnectionError" ∧
    validate_m3u8_url netDown "https://cdn.example/playlist.m3u8" [] = false :=
  ⟨rfl, (C4_validator_never_raises netDown "https://cdn.example/playlist.m3u8" []).1
    "ConnectionError" rfl⟩

/-- Claim C5, evaluated at the failing input: the proxy binary exists (so
setup_proxy succeeds and the server starts) but the chromedriver binary is
missing, so setup_driver raises inside the enter hook.  The run aborts before
any match is processed (the result does not depend on the processor) and no
output document is written — but, because Python does not call the exit hook
when the enter hook raises, cleanup never runs and the final state still has
the proxy server acquired (finalState.server = true), contradicting the
claimed release of the partially-acquired resource.  The second conjunct
shows the code's own cleanup would have released it had it been invoked. -/
theorem C5_setup_leak :
    (∀ proc, main_run { proxyPathExists := true, driverPathExists := false } proc [m0] "t"
      = { finalState := { server := true, driver := false }, output := none,
          fatalError := some "ChromeDriver not found" })
    ∧ cleanup { server := true, driver := false } = { server := false, driver := false } :=
  ⟨fun _ => rfl, rfl⟩

/-- Claim C6: error containment at both scopes.  A link whose retry-wrapped
extraction raises contributes nothing to the record while every other link's
streams still appear, and the rest of the record fields are built from the
input match unchanged; at the aggregator, a match whose processing raises is
skipped while every other match's record is kept, in order. -/
theorem C6_error_containment :
    ∀ (attemptOf : String → Nat → Except String (List StreamDict) × Nat)
      (m : MatchInput) (now : String)
      (proc : MatchInput → Except String StreamData) (ms : List MatchInput),
    (process_match attemptOf m now).streams
      = (m.links.map (fun link =>
          match (retry_extract (attemptOf link)).1 with
          | Except.ok streams => streams
          | Except.error _ => [])).flatten
    ∧ (process_match attemptOf m now).competition = m.competition
    ∧ (process_match attemptOf m now).matchName = m.matchName
    ∧ (process_match attemptOf m now).links = m.links
    ∧ mainLoop proc ms = ms.filterMap (fun mm =>
        match proc mm with
        | Except.ok r => some r
        | Except.error _ => none) := by
  intro attemptOf m now proc ms
  exact ⟨process_match_streams_eq attemptOf m now, rfl, rfl, rfl, mainLoop_eq proc ms⟩

/-- Claim C7: the retry wrapper makes at most 3 attempts; a first attempt
that returns normally — in particular with an empty stream list — is
returned as-is with no retry; and every attempt starts within the 30-second
elapsed-time ceiling (the backoff wait is clipped so the ceiling is never
overrun). -/
theorem C7_retry_policy :
    ∀ (f : Nat → Except String (List StreamDict) × Nat),
    (retry_extract f).2.length ≤ 3
    ∧ (∀ v d, f 0 = (Except.ok v, d) → retry_extract f = (Except.ok v, [0]))
    ∧ (∀ t ∈ (retry_extract f).2, t ≤ 30) := by
  intro f
  refine ⟨?_, ?_, ?_⟩
  · have h := on_exception_attempts_le f 3 30 3 0 0 (by decide)
    simpa [retry_extract] using h
  · intro v d h
    exact retry_extract_ok_first f v d h
  · intro t ht
    exact on_exception_starts_le f 3 30 3 0 0 (by decide) t ht

/-- Witness for C7_retry_policy: a first attempt that succeeds with an empty
result is not retried. -/
theorem C7_retry_policy_witness :
    fOk 0 = (Except.ok [], 5) ∧ retry_extract fOk = (Except.ok ([] : List StreamDict), [0]) :=
  ⟨rfl, (C7_retry_policy fOk).2.1 [] 5 rfl⟩

/-- Claim C8: for every capture, network and parameters with a positive poll
interval and sufficient fuel, the poll loop's result is independent of any
further fuel (the loop terminates without exhausting its budget) and the
loop's exit time is at most the timeout plus one poll interval. -/
theorem C8_poll_termination :
    ∀ (net : NetOracle) (link : String) (entriesAt : Nat → List HarEntry)
      (timeout interval fuel : Nat),
    1 ≤ interval → timeout ≤ fuel * interval →
    pollAux net link entriesAt timeout interval fuel [] 0
      = pollAux net link entriesAt timeout interval (fuel + 1) [] 0
    ∧ (pollAux net link entriesAt timeout interval fuel [] 0).2 ≤ timeout + interval := by
  intro net link entriesAt timeout interval fuel hint hfuel
  constructor
  · exact pollAux_fuel_stable (by omega)
  · exact le_of_lt (pollAux_time_lt (by omega))

/-- Witness for C8_poll_termination on an empty capture with timeout 3 and
interval 1. -/
theorem C8_poll_termination_witness :
    ((1 : Nat) ≤ 1 ∧ (3 : Nat) ≤ 3 * 1) ∧
    (pollAux netAll linkY entriesNone 3 1 3 [] 0).2 ≤ 3 + 1 :=
  ⟨⟨by decide, by decide⟩,
    (C8_poll_termination netAll linkY entriesNone 3 1 3 (by decide) (by decide)).2⟩

/-- Claim C9, counterexample.  For a concrete qualifying captured request
whose response status is recorded (200) in the capture, the produced stream
dict has no "response_status" key at all: the candidate does not carry the
response status, refuting "the response status of the captured request, all
populated". -/
theorem C9_counterexample :
    extract_stream_data netAll entriesY linkY = [sY] ∧
    lookupKey sY "response_status" = none ∧
    entryY.response.status = 200 :=
  ⟨by decide, rfl, rfl⟩

/-- Claim C9 (amended): every stream dict the detector produces carries a
url, a referrer, an origin and the source link it was extracted from, all
present; it does not carry the captured request's response status. -/
theorem C9_candidate_fields :
    ∀ (net : NetOracle) (entriesAt : Nat → List HarEntry) (link : String) (s : StreamDict),
    s ∈ extract_stream_data net entriesAt link →
    (∃ u, lookupKey s "url" = some u)
    ∧ (∃ r, lookupKey s "referrer" = some r)
    ∧ (∃ o, lookupKey s "origin" = some o)
    ∧ lookupKey s "source_link" = some link
    ∧ lookupKey s "response_status" = none := by
  intro net entriesAt link s hs
  unfold extract_stream_data at hs
  rcases mem_pollAux hs with h | ⟨t2, e, he, hq, rfl⟩
  · simp at h
  · exact ⟨⟨e.request.url, lookup_mk_url e link⟩,
      ⟨resolveReferer e.request.headers e.response.headers link, lookup_mk_referrer e link⟩,
      ⟨resolveOrigin e.request.headers e.response.headers link, lookup_mk_origin e link⟩,
      lookup_mk_source e link, lookup_mk_status e link⟩

/-- Witness for C9_candidate_fields on a concrete capture. -/
theorem C9_candidate_fields_witness :
    sY ∈ extract_stream_data netAll entriesY linkY ∧
    ((∃ u, lookupKey sY "url" = some u)
      ∧ (∃ r, lookupKey sY "referrer" = some r)
      ∧ (∃ o, lookupKey sY "origin" = some o)
      ∧ lookupKey sY "source_link" = some linkY
      ∧ lookupKey sY "response_status" = none) :=
  ⟨by decide, C9_candidate_fields netAll entriesY linkY sY (by decide)⟩

/-- Claim C10: the success rate is always in the interval from 0 to 1; it is
0 when there are no match records, and matches_with_streams over the total
otherwise, where matches_with_streams counts the records whose stream list is
non-empty. -/
theorem C10_success_rate :
    ∀ (ms : List StreamData),
    0 ≤ success_rate ms ∧ success_rate ms ≤ 1 ∧
    (ms.length = 0 → success_rate ms = 0) ∧
    (0 < ms.length →
      success_rate ms = (matches_with_streams ms : ℚ) / (ms.length : ℚ)) := by
  intro ms
  have hle : matches_with_streams ms ≤ ms.length := List.length_filter_le _ _
  refine ⟨?_, ?_, ?_, ?_⟩
  · unfold success_rate
    split
    · positivity
    · exact le_refl 0
  · unfold success_rate
    split
    · rename_i h
      rw [div_le_one (by exact_mod_cast h)]
      exact_mod_cast hle
    · norm_num
  · intro h; simp [success_rate, h]
  · intro h; simp [success_rate, h]

/-- Witness for C10_success_rate on a two-record list with one non-empty
stream collection. -/
theorem C10_success_rate_witness :
    (0 : Nat) < [sd1, sd0].length ∧
    success_rate [sd1, sd0]
      = (matches_with_streams [sd1, sd0] : ℚ) / (([sd1, sd0].length : ℚ)) :=
  ⟨by decide, (C10_success_rate [sd1, sd0]).2.2.2 (by decide)⟩

end DLHD
